import Mathlib

/-
Verification of the L-Mul bfloat16 approximate-multiplication repository.

The definitions below are shallow embeddings of the Python sources:
  src/rtl/py_lmul.py       (scalar kernel lmul)
  src/rtl/numpy_lmul.py    (array kernel lmul_numpy_vectorized, lmul_numpy_matmul)
  src/rtl/pytorch_lmul.py  (tensor kernel lmul_torch_vectorized, lmul_torch_matmul)
  src/utils/floats.py      (bf16 codec)
  src/NNs/lmul_nn_funcs.py (lmul_bits wrapper)
  src/rtl/lmul_tester.py   (BatchLMULTester.test_batch output parsing)
Machine integers are modelled as Nat with explicit reductions modulo 2 ^ w at
the places where the source casts to a fixed-width dtype.
-/

/-- Scalar kernel from src/rtl/py_lmul.py.  Python integers are unbounded, so
the arguments are plain Nat; every mask and shift mirrors the source line by
line. -/
def lmul (a_bf16 b_bf16 : Nat) : Nat :=
  let a_fld := a_bf16 &&& 0x7FFF
  let b_fld := b_bf16 &&& 0x7FFF
  let a_exp := (a_fld >>> 7) &&& 0xFF
  let b_exp := (b_fld >>> 7) &&& 0xFF
  if a_exp = 0 ∨ b_exp = 0 then 0
  else
    let sum_full := a_fld + b_fld + 0x4080
    let carry2 := (sum_full >>> 15) &&& 0x3
    let low_bits := sum_full &&& 0x7FFF
    let field_sel := if carry2 = 0 then 0 else if carry2 = 1 then low_bits else 0x7FFF
    let out_sign := if field_sel = 0 then 0 else ((a_bf16 ^^^ b_bf16) >>> 15) &&& 1
    (out_sign <<< 15) ||| field_sel

/-- Elementwise value semantics of lmul_numpy_vectorized from
src/rtl/numpy_lmul.py.  Every numpy operation in the source acts
independently on each array position; this function gives the value computed
at one position.  The initial astype to uint16 is the reduction modulo
2 ^ 16; the sums are carried out in uint32, hence the reduction modulo 2 ^ 32;
the masked writes into the zero-initialised field_sel become the two nested
conditionals; the final uint16 shift wraps modulo 2 ^ 16. -/
def lmul_numpy_vectorized (a b : Nat) : Nat :=
  let a_bf16 := a % 65536
  let b_bf16 := b % 65536
  let a_fld := a_bf16 &&& 0x7FFF
  let b_fld := b_bf16 &&& 0x7FFF
  let a_exp := (a_fld >>> 7) &&& 0xFF
  let b_exp := (b_fld >>> 7) &&& 0xFF
  let zero_or_sub := a_exp = 0 ∨ b_exp = 0
  let sum_full := (a_fld + b_fld + 0x4080) % 4294967296
  let carry2 := (sum_full >>> 15) &&& 0x3
  let low_bits := sum_full &&& 0x7FFF
  let fs1 := if carry2 = 1 ∧ ¬ zero_or_sub then low_bits % 65536 else 0
  let field_sel := if 2 ≤ carry2 ∧ ¬ zero_or_sub then 0x7FFF else fs1
  let out_sign_raw := ((a_bf16 ^^^ b_bf16) >>> 15) &&& 1
  let out_sign := if field_sel = 0 then 0 else out_sign_raw
  (((out_sign % 65536) <<< 15) % 65536) ||| field_sel

/-- Elementwise value semantics of lmul_torch_vectorized from
src/rtl/pytorch_lmul.py.  The uint16 input tensors are converted to int32
(value preserving; all intermediate values stay far below 2 ^ 31, so plain
Nat arithmetic is the faithful model); the masked writes into the
zero-initialised field_sel become the two nested conditionals; the final
conversion to uint16 is the reduction modulo 2 ^ 16. -/
def lmul_torch_vectorized (a b : Nat) : Nat :=
  let a_bf16_int := a % 65536
  let b_bf16_int := b % 65536
  let a_fld := a_bf16_int &&& 0x7FFF
  let b_fld := b_bf16_int &&& 0x7FFF
  let a_exp := (a_fld >>> 7) &&& 0xFF
  let b_exp := (b_fld >>> 7) &&& 0xFF
  let zero_or_sub := a_exp = 0 ∨ b_exp = 0
  let sum_full := a_fld + b_fld + 0x4080
  let carry2 := (sum_full >>> 15) &&& 0x3
  let low_bits := sum_full &&& 0x7FFF
  let fs1 := if carry2 = 1 ∧ ¬ zero_or_sub then low_bits else 0
  let field_sel := if 2 ≤ carry2 ∧ ¬ zero_or_sub then 0x7FFF else fs1
  let out_sign_raw := ((a_bf16_int ^^^ b_bf16_int) >>> 15) &&& 1
  let out_sign := if field_sel = 0 then 0 else out_sign_raw
  ((out_sign <<< 15) ||| field_sel) % 65536

section BitArithmeticBridges

/-- Masking with 0x7FFF is reduction modulo 2 ^ 15. -/
theorem and_mask15 (x : Nat) : x &&& 0x7FFF = x % 32768 := by
  have h := Nat.and_pow_two_sub_one_eq_mod x 15
  norm_num at h
  exact h

/-- Masking with 0xFFFF is reduction modulo 2 ^ 16. -/
theorem and_mask16 (x : Nat) : x &&& 0xFFFF = x % 65536 := by
  have h := Nat.and_pow_two_sub_one_eq_mod x 16
  norm_num at h
  exact h

/-- Masking with 0xFF is reduction modulo 2 ^ 8. -/
theorem and_mask8 (x : Nat) : x &&& 0xFF = x % 256 := by
  have h := Nat.and_pow_two_sub_one_eq_mod x 8
  norm_num at h
  exact h

/-- Masking with 0x7F is reduction modulo 2 ^ 7. -/
theorem and_mask7 (x : Nat) : x &&& 0x7F = x % 128 := by
  have h := Nat.and_pow_two_sub_one_eq_mod x 7
  norm_num at h
  exact h

/-- Masking with 0x3 is reduction modulo 4. -/
theorem and_mask2 (x : Nat) : x &&& 0x3 = x % 4 := by
  have h := Nat.and_pow_two_sub_one_eq_mod x 2
  norm_num at h
  exact h

/-- Right shift by 15 is division by 2 ^ 15. -/
theorem shr15 (x : Nat) : x >>> 15 = x / 32768 := by
  have h := Nat.shiftRight_eq_div_pow x 15
  norm_num at h
  exact h

/-- Right shift by 7 is division by 2 ^ 7. -/
theorem shr7 (x : Nat) : x >>> 7 = x / 128 := by
  have h := Nat.shiftRight_eq_div_pow x 7
  norm_num at h
  exact h

/-- Left shift by 15 is multiplication by 2 ^ 15. -/
theorem shl15 (x : Nat) : x <<< 15 = x * 32768 := by
  have h := Nat.shiftLeft_eq x 15
  norm_num at h
  exact h

/-- Packing a sign above a 15-bit field with a bitwise or is plain addition. -/
theorem pack_or_eq_add (s f : Nat) (hf : f < 32768) : (s * 32768) ||| f = 32768 * s + f := by
  have h15 : (32768 : Nat) = 2 ^ 15 := by norm_num
  have hf2 : f < 2 ^ 15 := by omega
  have h := Nat.mul_add_lt_is_or hf2 s
  rw [Nat.mul_comm s 32768, h15]
  exact h.symm

/-- Right shift distributes over bitwise xor. -/
theorem shiftRight_xor_distrib (a b n : Nat) : (a ^^^ b) >>> n = (a >>> n) ^^^ (b >>> n) := by
  apply Nat.eq_of_testBit_eq
  intro i
  simp

/-- Right shift distributes over bitwise and. -/
theorem shiftRight_and_distrib (a b n : Nat) : (a &&& b) >>> n = (a >>> n) &&& (b >>> n) := by
  apply Nat.eq_of_testBit_eq
  intro i
  simp

/-- Bit 15 of a xor is the xor of the bits 15. -/
theorem sign_xor_split (a b : Nat) :
    ((a ^^^ b) >>> 15) &&& 1 = ((a >>> 15) &&& 1) ^^^ ((b >>> 15) &&& 1) := by
  rw [shiftRight_xor_distrib, Nat.and_xor_distrib_right]

/-- Bit 15 of a xor, stated in division and remainder form. -/
theorem sign_xor_split_mod (a b : Nat) :
    (a ^^^ b) / 32768 % 2 = (a / 32768 % 2) ^^^ (b / 32768 % 2) := by
  have h := sign_xor_split a b
  simp only [shr15, Nat.and_one_is_mod] at h
  exact h

/-- Packing the numpy way, with the uint16 wrap-arounds, is plain addition. -/
theorem pack_numpy (sg f : Nat) (hsg : sg ≤ 1) (hf : f < 32768) :
    (((sg % 65536) * 32768) % 65536) ||| f = 32768 * sg + f := by
  have h1 : sg % 65536 = sg := by omega
  have h2 : sg * 32768 % 65536 = sg * 32768 := by omega
  rw [h1, h2, pack_or_eq_add sg f hf]

/-- A bitwise or of two 16-bit values is 16-bit. -/
theorem or_lt_65536 (x y : Nat) (hx : x < 65536) (hy : y < 65536) : x ||| y < 65536 := by
  have h : (65536 : Nat) = 2 ^ 16 := by norm_num
  rw [h] at hx hy ⊢
  exact Nat.or_lt_two_pow hx hy

end BitArithmeticBridges

section KernelEquivalence

/-- The numpy kernel agrees with the scalar kernel on 16-bit inputs. -/
theorem lmul_numpy_eq_lmul (a b : Nat) (ha : a ≤ 0xFFFF) (hb : b ≤ 0xFFFF) :
    lmul_numpy_vectorized a b = lmul a b := by
  have ha' : a % 65536 = a := Nat.mod_eq_of_lt (by omega)
  have hb' : b % 65536 = b := Nat.mod_eq_of_lt (by omega)
  simp only [lmul_numpy_vectorized, lmul, ha', hb', and_mask15, and_mask8, and_mask2,
    shr15, shr7, shl15, Nat.and_one_is_mod]
  have hsum : (a % 32768 + b % 32768 + 0x4080) % 4294967296
      = a % 32768 + b % 32768 + 0x4080 := by omega
  rw [hsum]
  by_cases hz : a % 32768 / 128 % 256 = 0 ∨ b % 32768 / 128 % 256 = 0
  · simp [hz]
  · simp only [hz, if_false, not_false_iff, and_true]
    have hc : a % 32768 + b % 32768 + 0x4080 < 131072 := by omega
    have hcases : (a % 32768 + b % 32768 + 0x4080) / 32768 % 4 = 0 ∨
        (a % 32768 + b % 32768 + 0x4080) / 32768 % 4 = 1 ∨
        (a % 32768 + b % 32768 + 0x4080) / 32768 % 4 = 2 ∨
        (a % 32768 + b % 32768 + 0x4080) / 32768 % 4 = 3 := by omega
    rcases hcases with h4 | h4 | h4 | h4 <;> rw [h4] <;> norm_num
    · -- carry2 = 1 : the normal path, field is the low fifteen bits of the sum
      have hlow : (a % 32768 + b % 32768 + 0x4080) % 32768 < 32768 := by omega
      have hlow' : (a % 32768 + b % 32768 + 0x4080) % 32768 % 65536
          = (a % 32768 + b % 32768 + 0x4080) % 32768 := by omega
      rw [hlow']
      by_cases hf0 : (a % 32768 + b % 32768 + 0x4080) % 32768 = 0
      · simp [hf0]
      · simp only [hf0, if_false]
        have hs : (a ^^^ b) / 32768 % 2 * 32768 % 65536
            = (a ^^^ b) / 32768 % 2 * 32768 := by omega
        rw [hs]
    · -- carry2 = 2 : saturation
      have hs : (a ^^^ b) / 32768 % 2 * 32768 % 65536
          = (a ^^^ b) / 32768 % 2 * 32768 := by omega
      rw [hs]
    · -- carry2 = 3 : saturation
      have hs : (a ^^^ b) / 32768 % 2 * 32768 % 65536
          = (a ^^^ b) / 32768 % 2 * 32768 := by omega
      rw [hs]

/-- The torch kernel agrees with the scalar kernel on 16-bit inputs. -/
theorem lmul_torch_eq_lmul (a b : Nat) (ha : a ≤ 0xFFFF) (hb : b ≤ 0xFFFF) :
    lmul_torch_vectorized a b = lmul a b := by
  have ha' : a % 65536 = a := Nat.mod_eq_of_lt (by omega)
  have hb' : b % 65536 = b := Nat.mod_eq_of_lt (by omega)
  simp only [lmul_torch_vectorized, lmul, ha', hb', and_mask15, and_mask8, and_mask2,
    shr15, shr7, shl15, Nat.and_one_is_mod]
  by_cases hz : a % 32768 / 128 % 256 = 0 ∨ b % 32768 / 128 % 256 = 0
  · simp [hz]
  · simp only [hz, if_false, not_false_iff, and_true]
    have hcases : (a % 32768 + b % 32768 + 0x4080) / 32768 % 4 = 0 ∨
        (a % 32768 + b % 32768 + 0x4080) / 32768 % 4 = 1 ∨
        (a % 32768 + b % 32768 + 0x4080) / 32768 % 4 = 2 ∨
        (a % 32768 + b % 32768 + 0x4080) / 32768 % 4 = 3 := by omega
    rcases hcases with h4 | h4 | h4 | h4 <;> rw [h4] <;> norm_num
    · -- carry2 = 1 : the normal path
      have hlow : (a % 32768 + b % 32768 + 0x4080) % 32768 < 32768 := by omega
      by_cases hf0 : (a % 32768 + b % 32768 + 0x4080) % 32768 = 0
      · simp [hf0]
      · simp only [hf0, if_false]
        exact or_lt_65536 _ _ (by omega) (by omega)
    · -- carry2 = 2 : saturation
      exact or_lt_65536 _ _ (by omega) (by omega)
    · -- carry2 = 3 : saturation
      exact or_lt_65536 _ _ (by omega) (by omega)

/-- Bit 15 survives masking with 0xFFFF. -/
theorem bit15_and_mask16 (x : Nat) : ((x &&& 0xFFFF) >>> 15) &&& 1 = (x >>> 15) &&& 1 := by
  rw [shiftRight_and_distrib]
  have h1 : (0xFFFF : Nat) >>> 15 = 1 := by decide
  have h11 : (1 : Nat) &&& 1 = 1 := by decide
  rw [h1, Nat.and_assoc, h11]

/-- The scalar kernel is commutative, for all Nat inputs. -/
theorem lmul_comm_nat (a b : Nat) : lmul a b = lmul b a := by
  simp only [lmul]
  by_cases hz : ((a &&& 0x7FFF) >>> 7) &&& 0xFF = 0 ∨ ((b &&& 0x7FFF) >>> 7) &&& 0xFF = 0
  · rw [if_pos hz, if_pos (Or.symm hz)]
  · rw [if_neg hz, if_neg (fun h => hz (Or.symm h))]
    rw [Nat.add_comm (b &&& 0x7FFF) (a &&& 0x7FFF), Nat.xor_comm b a]

end KernelEquivalence

/-- Reference definition of the kernel, written from the six-step wording of
the specification: zero on a zero exponent field, field selected by the 2-bit
carry of the 17-bit biased field sum (Nat arithmetic is exact, so the sum is
held in full precision), sign the xor of the two operand sign bits unless the
selected field is zero. -/
def lmul_ref_spec (a b : Nat) : Nat :=
  let fieldA := a &&& 0x7FFF
  let fieldB := b &&& 0x7FFF
  if ((a &&& 0x7FFF) >>> 7) &&& 0xFF = 0 ∨ ((b &&& 0x7FFF) >>> 7) &&& 0xFF = 0 then 0
  else
    let sum := fieldA + fieldB + 0x4080
    let carry2 := (sum >>> 15) &&& 0x3
    let field := if carry2 = 0 then 0 else if carry2 = 1 then sum &&& 0x7FFF else 0x7FFF
    let sign := if field = 0 then 0 else ((a >>> 15) &&& 1) ^^^ ((b >>> 15) &&& 1)
    (sign <<< 15) ||| field

/-- C1: for every pair of 16-bit inputs, the scalar kernel, the elementwise
numpy kernel and the elementwise torch kernel return the identical 16-bit
result. -/
theorem claim_C1 (a b : Nat) (ha : a ≤ 0xFFFF) (hb : b ≤ 0xFFFF) :
    lmul_numpy_vectorized a b = lmul a b ∧ lmul_torch_vectorized a b = lmul a b :=
  ⟨lmul_numpy_eq_lmul a b ha hb, lmul_torch_eq_lmul a b ha hb⟩

/-- Witness for C1 at the concrete input pair (0x4020, 0x3F80). -/
theorem claim_C1_witness :
    (0x4020 : Nat) ≤ 0xFFFF ∧ (0x3F80 : Nat) ≤ 0xFFFF ∧
      (lmul_numpy_vectorized 0x4020 0x3F80 = lmul 0x4020 0x3F80 ∧
        lmul_torch_vectorized 0x4020 0x3F80 = lmul 0x4020 0x3F80) :=
  ⟨by decide, by decide, claim_C1 0x4020 0x3F80 (by decide) (by decide)⟩

/-- C2: for every pair of 16-bit inputs, the scalar kernel equals the
six-step reference definition taken from the specification. -/
theorem claim_C2 (a b : Nat) (ha : a ≤ 0xFFFF) (hb : b ≤ 0xFFFF) :
    lmul a b = lmul_ref_spec a b := by
  simp only [lmul, lmul_ref_spec, sign_xor_split]

/-- Witness for C2 at the concrete input pair (0x40A0, 0xC080). -/
theorem claim_C2_witness :
    (0x40A0 : Nat) ≤ 0xFFFF ∧ (0xC080 : Nat) ≤ 0xFFFF ∧
      lmul 0x40A0 0xC080 = lmul_ref_spec 0x40A0 0xC080 :=
  ⟨by decide, by decide, claim_C2 0x40A0 0xC080 (by decide) (by decide)⟩

/-- C8: the kernel is commutative on 16-bit inputs. -/
theorem claim_C8 (a b : Nat) (ha : a ≤ 0xFFFF) (hb : b ≤ 0xFFFF) :
    lmul a b = lmul b a :=
  lmul_comm_nat a b

/-- Witness for C8 at the concrete input pair (0x4020, 0xBF80). -/
theorem claim_C8_witness :
    (0x4020 : Nat) ≤ 0xFFFF ∧ (0xBF80 : Nat) ≤ 0xFFFF ∧
      lmul 0x4020 0xBF80 = lmul 0xBF80 0x4020 :=
  ⟨by decide, by decide, claim_C8 0x4020 0xBF80 (by decide) (by decide)⟩

/-- C9: whenever the result field (low 15 bits) of the kernel is zero, the
sign bit (bit 15) of the result is zero as well. -/
theorem claim_C9 (a b : Nat) (ha : a ≤ 0xFFFF) (hb : b ≤ 0xFFFF)
    (h : lmul a b &&& 0x7FFF = 0) : (lmul a b >>> 15) &&& 1 = 0 := by
  rw [and_mask15] at h
  rw [shr15, Nat.and_one_is_mod]
  simp only [lmul, and_mask15, and_mask8, and_mask2, shr15, shr7, shl15,
    Nat.and_one_is_mod] at h ⊢
  by_cases hz : a % 32768 / 128 % 256 = 0 ∨ b % 32768 / 128 % 256 = 0
  · simp [hz] at h ⊢
  · simp only [hz, if_false] at h ⊢
    have hcases : (a % 32768 + b % 32768 + 0x4080) / 32768 % 4 = 0 ∨
        (a % 32768 + b % 32768 + 0x4080) / 32768 % 4 = 1 ∨
        (a % 32768 + b % 32768 + 0x4080) / 32768 % 4 = 2 ∨
        (a % 32768 + b % 32768 + 0x4080) / 32768 % 4 = 3 := by omega
    rcases hcases with h4 | h4 | h4 | h4 <;> rw [h4] at h ⊢ <;> norm_num at h ⊢
    · by_cases hf0 : (a % 32768 + b % 32768 + 0x4080) % 32768 = 0
      · simp [hf0]
      · simp only [hf0, if_false] at h ⊢
        rw [pack_or_eq_add _ _ (by omega)] at h
        omega
    · rw [pack_or_eq_add _ _ (by omega)] at h
      omega
    · rw [pack_or_eq_add _ _ (by omega)] at h
      omega

/-- Witness for C9 at the concrete input pair (0x0080, 0x0080), whose field
sum underflows to a zero field. -/
theorem claim_C9_witness :
    (0x0080 : Nat) ≤ 0xFFFF ∧ lmul 0x0080 0x0080 &&& 0x7FFF = 0 ∧
      (lmul 0x0080 0x0080 >>> 15) &&& 1 = 0 :=
  ⟨by decide, by decide, claim_C9 0x0080 0x0080 (by decide) (by decide) (by decide)⟩

/-- C10: the scalar kernel depends only on the low 16 bits of each argument,
so arbitrarily large Python integers are silently truncated to 16 bits. -/
theorem claim_C10 (a b : Nat) : lmul a b = lmul (a &&& 0xFFFF) (b &&& 0xFFFF) := by
  simp only [lmul]
  have hfa : (a &&& 0xFFFF) &&& 0x7FFF = a &&& 0x7FFF := by
    rw [Nat.and_assoc, (by decide : (0xFFFF : Nat) &&& 0x7FFF = 0x7FFF)]
  have hfb : (b &&& 0xFFFF) &&& 0x7FFF = b &&& 0x7FFF := by
    rw [Nat.and_assoc, (by decide : (0xFFFF : Nat) &&& 0x7FFF = 0x7FFF)]
  have hsign : (((a &&& 0xFFFF) ^^^ (b &&& 0xFFFF)) >>> 15) &&& 1
      = ((a ^^^ b) >>> 15) &&& 1 := by
    rw [← Nat.and_xor_distrib_right, bit15_and_mask16]
  rw [hfa, hfb, hsign]

/-- Integer pipeline of lmul_bits from src/NNs/lmul_nn_funcs.py, modelled
elementwise from the truncated 16-bit operand patterns onward.  The first
component is result_bits_bf16 (the packed bit pattern before it is
reinterpreted as float32); the second component is zero_mask.  The later
steps of the source — the decode to float32, the result/32 + result/64
correction and the torch.where that forces zero_mask positions to 0.0 —
operate on the decoded float only and never touch this integer pipeline. -/
def lmul_bits_pattern (a_bf16 b_bf16 : Nat) : Nat × Bool :=
  let a_sign := (a_bf16 >>> 15) &&& 0x1
  let b_sign := (b_bf16 >>> 15) &&& 0x1
  let a_field := a_bf16 &&& 0x7FFF
  let b_field := b_bf16 &&& 0x7FFF
  let a_exp := (a_field >>> 7) &&& 0xFF
  let b_exp := (b_field >>> 7) &&& 0xFF
  let zero_mask := (a_exp == 0) || (b_exp == 0)
  let sum_full := a_field + b_field + 0x4080
  let carry2 := (sum_full >>> 15) &&& 0x3
  let fs1 := if carry2 = 1 then sum_full &&& 0x7FFF else 0
  let field_sel := if 2 ≤ carry2 then 0x7FFF else fs1
  let s_result := if field_sel = 0 then 0 else a_sign ^^^ b_sign
  ((s_result <<< 15) ||| field_sel, zero_mask)

/-- C6 counterexample: on the subnormal operand 0x0040 paired with 1.0
(0x3F80) the wrapper computes the internal bit pattern 0x0040, while the
kernel returns 0x0000 — the wrapper does not compute the 16-bit bit pattern
exactly as the kernel does on zero-mask inputs. -/
theorem claim_C6_counterexample :
    (lmul_bits_pattern 0x0040 0x3F80).1 = 0x0040 ∧ lmul 0x0040 0x3F80 = 0 ∧
      (lmul_bits_pattern 0x0040 0x3F80).1 ≠ lmul 0x0040 0x3F80 := by
  decide

/-- C6 (amended): the correction never touches the integer pipeline; the
wrapper bit pattern equals the kernel result whenever the zero mask is off,
and whenever the zero mask is on (where the wrapper instead forces the
decoded float to 0.0) the kernel result is 0x0000, so the decoded outputs
agree up to the explicit float-level correction stage. -/
theorem claim_C6 (a b : Nat) (ha : a ≤ 0xFFFF) (hb : b ≤ 0xFFFF) :
    ((lmul_bits_pattern a b).2 = false → (lmul_bits_pattern a b).1 = lmul a b) ∧
      ((lmul_bits_pattern a b).2 = true → lmul a b = 0) := by
  simp only [lmul_bits_pattern, lmul, sign_xor_split, and_mask15, and_mask8, and_mask2,
    shr15, shr7, shl15, Nat.and_one_is_mod]
  constructor
  · intro h
    rw [Bool.or_eq_false_iff] at h
    obtain ⟨h1, h2⟩ := h
    rw [beq_eq_false_iff_ne] at h1 h2
    have hz : ¬(a % 32768 / 128 % 256 = 0 ∨ b % 32768 / 128 % 256 = 0) := by tauto
    simp only [hz, if_false]
    have hcases : (a % 32768 + b % 32768 + 0x4080) / 32768 % 4 = 0 ∨
        (a % 32768 + b % 32768 + 0x4080) / 32768 % 4 = 1 ∨
        (a % 32768 + b % 32768 + 0x4080) / 32768 % 4 = 2 ∨
        (a % 32768 + b % 32768 + 0x4080) / 32768 % 4 = 3 := by omega
    rcases hcases with h4 | h4 | h4 | h4 <;> rw [h4] <;> norm_num [sign_xor_split_mod]
  · intro h
    rw [Bool.or_eq_true] at h
    rw [beq_iff_eq, beq_iff_eq] at h
    rw [if_pos h]

/-- Witness for C6 at the concrete input pair (0x4020, 0x3F80). -/
theorem claim_C6_witness :
    (0x4020 : Nat) ≤ 0xFFFF ∧
      (((lmul_bits_pattern 0x4020 0x3F80).2 = false →
          (lmul_bits_pattern 0x4020 0x3F80).1 = lmul 0x4020 0x3F80) ∧
        ((lmul_bits_pattern 0x4020 0x3F80).2 = true → lmul 0x4020 0x3F80 = 0)) :=
  ⟨by decide, claim_C6 0x4020 0x3F80 (by decide) (by decide)⟩

section Bf16Codec

/-- Model of the Python and numpy floating-point values handled by the BF16
codec in src/utils/floats.py.  A finite value whose magnitude is at most the
clip bound 3.4e38 is represented by the 16-bit pattern obtained when it is
converted to IEEE-754 single precision and the upper 16 bits are kept (the
composite the codec applies to every in-range finite value); finite values
beyond the clip bound keep only their sign, because the codec always clips
them before any truncation. -/
inductive PFloat where
  | nan : PFloat
  | pinf : PFloat
  | ninf : PFloat
  | finIn (t : Nat) : PFloat
  | finBig (neg : Bool) : PFloat
deriving DecidableEq

/-- Semantics of np.isnan (and torch.isnan) on a PFloat. -/
def np_isnan : PFloat → Bool
  | .nan => true
  | _ => false

/-- Semantics of np.isinf (and torch.isinf) on a PFloat. -/
def np_isinf : PFloat → Bool
  | .pinf => true
  | .ninf => true
  | _ => false

/-- Semantics of np.clip(f, -3.4e38, 3.4e38) (and the equivalent
torch.clamp): NaN propagates, either infinity is replaced by the
corresponding finite clip bound, in-range finite values pass unchanged, and
out-of-range finite values are replaced by the bound of their sign.  The
single-precision truncation of the clip bound 3.4e38 is the 32-bit pattern
0x7F7FC99E, whose upper 16 bits are 0x7F7F (0xFF7F for -3.4e38). -/
def np_clip34 : PFloat → PFloat
  | .nan => .nan
  | .pinf => .finIn 0x7F7F
  | .ninf => .finIn 0xFF7F
  | .finIn t => .finIn t
  | .finBig neg => .finIn (if neg then 0xFF7F else 0x7F7F)

/-- Upper 16 bits of the IEEE-754 single-precision pattern of a PFloat, the
composite of float32 conversion, viewing the bits, and shifting right by 16.
The codecs only apply it after clipping, so only the nan and finIn branches
are ever reached; a float64 NaN converts to the quiet single-precision NaN
0x7FC00000, giving 0x7FC0. -/
def f32_trunc : PFloat → Nat
  | .finIn t => t
  | .nan => 0x7FC0
  | .pinf => 0x7F80
  | .ninf => 0xFF80
  | .finBig neg => if neg then 0xFF80 else 0x7F80

/-- Scalar encoder float_to_bf16 from src/utils/floats.py: NaN and the two
infinities are dispatched before the clip and the truncation.  The source
comparison f < 0 under np.isinf holds exactly for negative infinity. -/
def float_to_bf16 (f : PFloat) : Nat :=
  if np_isnan f then 0x7FC0
  else if np_isinf f then (if f = .ninf then 0xFF80 else 0x7F80)
  else f32_trunc (np_clip34 f)

/-- Elementwise value semantics of float_to_bf16_array from
src/utils/floats.py: the input is clipped first, the clipped value is
truncated, and only then are the special-case masks — computed on the
already clipped value — patched in.  The mask conjunction isinf f and f < 0
holds exactly when the clipped value is negative infinity, and isinf f and
f >= 0 exactly when it is positive infinity. -/
def float_to_bf16_array (f : PFloat) : Nat :=
  let fc := np_clip34 f
  let bits0 := f32_trunc fc
  let bits1 := if np_isnan fc then 0x7FC0 else bits0
  let bits2 := if fc = .ninf then 0xFF80 else bits1
  if fc = .pinf then 0x7F80 else bits2

/-- Elementwise value semantics of float_to_bf16_tensor from
src/utils/floats.py: the same clip-first structure as the array variant
(torch.clamp, then truncation through int64 and int32 casts that are exact
for these 32-bit values, then the three torch.where patches on masks
computed from the clamped value). -/
def float_to_bf16_tensor (f : PFloat) : Nat :=
  let fc := np_clip34 f
  let bits0 := (f32_trunc fc) &&& 0xFFFF
  let bits1 := if np_isnan fc then 0x7FC0 else bits0
  let bits2 := if fc = .ninf then 0xFF80 else bits1
  if fc = .pinf then 0x7F80 else bits2

/-- Decoder bf16_to_float from src/utils/floats.py: the 16-bit pattern is
placed in the upper half of a 32-bit word and reinterpreted as IEEE-754
single precision (returned as an exact Python float).  An exponent field of
0xFF decodes to NaN or to a signed infinity; every other pattern decodes to
a finite value of magnitude at most 0x7F7F0000, which is about 3.39e38 and
hence inside the clip range, and whose single-precision truncation
reproduces the pattern. -/
def bf16_to_float (bf16 : Nat) : PFloat :=
  let bits := bf16 &&& 0xFFFF
  let exp := (bits >>> 7) &&& 0xFF
  let mant := bits &&& 0x7F
  if exp = 0xFF then
    if mant = 0 then (if bits >>> 15 = 1 then .ninf else .pinf) else .nan
  else .finIn bits

/-- C3 is contradicted by the code: the bulk encoders clip before they
compute the NaN and infinity masks, and clipping replaces an infinity by the
finite bound 3.4e38, so the masks never see an infinity; the bulk encoders
therefore return 0x7F7F (the truncation of 3.4e38) for positive infinity and
0xFF7F for negative infinity, while the scalar encoder returns 0x7F80 and
0xFF80. -/
theorem claim_C3 :
    float_to_bf16_array PFloat.pinf = 0x7F7F ∧
      float_to_bf16_tensor PFloat.pinf = 0x7F7F ∧
      float_to_bf16 PFloat.pinf = 0x7F80 ∧
      float_to_bf16_array PFloat.ninf = 0xFF7F ∧
      float_to_bf16_tensor PFloat.ninf = 0xFF7F ∧
      float_to_bf16 PFloat.ninf = 0xFF80 ∧
      float_to_bf16_array PFloat.nan = 0x7FC0 ∧
      float_to_bf16 PFloat.nan = 0x7FC0 := by
  decide

/-- C4 counterexample: the pattern 0x7F81 has exponent field 0xFF and a
nonzero mantissa, so it decodes to NaN, and re-encoding a NaN gives the
fixed pattern 0x7FC0, not 0x7F81. -/
theorem claim_C4_counterexample :
    float_to_bf16 (bf16_to_float 0x7F81) = 0x7FC0 ∧ (0x7FC0 : Nat) ≠ 0x7F81 := by
  decide

/-- C4 (amended): encode after decode is the identity on every 16-bit
pattern that does not decode to NaN, and on the canonical NaN pattern
0x7FC0; the NaN patterns other than 0x7FC0 all collapse to 0x7FC0. -/
theorem claim_C4 :
    ∀ v : Nat, v < 65536 →
      ((v >>> 7) &&& 0xFF ≠ 0xFF ∨ v &&& 0x7F = 0 ∨ v = 0x7FC0) →
      float_to_bf16 (bf16_to_float v) = v := by
  intro v hv hcond
  have hmask : v &&& 0xFFFF = v := by rw [and_mask16]; omega
  simp only [bf16_to_float, hmask]
  by_cases hexp : (v >>> 7) &&& 0xFF = 0xFF
  · by_cases hmant : v &&& 0x7F = 0
    · -- the pattern decodes to a signed infinity and the sign pins it down
      rw [if_pos hexp, if_pos hmant]
      by_cases hs : v >>> 15 = 1
      · rw [if_pos hs]
        have henc : float_to_bf16 PFloat.ninf = 0xFF80 := by decide
        rw [henc]
        rw [and_mask8, shr7] at hexp
        rw [and_mask7] at hmant
        rw [shr15] at hs
        omega
      · rw [if_neg hs]
        have henc : float_to_bf16 PFloat.pinf = 0x7F80 := by decide
        rw [henc]
        rw [and_mask8, shr7] at hexp
        rw [and_mask7] at hmant
        rw [shr15] at hs
        omega
    · -- a NaN pattern: the amendment restricts it to the canonical 0x7FC0
      rcases hcond with h | h | h
      · exact absurd hexp h
      · exact absurd h hmant
      · subst h
        decide
  · -- a finite pattern round-trips exactly
    rw [if_neg hexp]
    simp [float_to_bf16, np_isnan, np_isinf, np_clip34, f32_trunc]

/-- Witness for C4 at the concrete pattern 0xC0A0. -/
theorem claim_C4_witness :
    (0xC0A0 : Nat) < 65536 ∧
      (((0xC0A0 : Nat) >>> 7) &&& 0xFF ≠ 0xFF ∨ (0xC0A0 : Nat) &&& 0x7F = 0 ∨
        (0xC0A0 : Nat) = 0x7FC0) ∧
      float_to_bf16 (bf16_to_float 0xC0A0) = 0xC0A0 :=
  ⟨by decide, by decide, claim_C4 0xC0A0 (by decide) (by decide)⟩

end Bf16Codec

section MatmulShapes

/-- Shape semantics of np.broadcast_to for equal-rank shapes: every source
dimension must equal the target dimension or be 1, otherwise numpy raises a
broadcast error. -/
def broadcast_to_ok : List Nat → List Nat → Bool
  | [], [] => true
  | s :: ss, t :: ts => if s = t ∨ s = 1 then broadcast_to_ok ss ts else false
  | _, _ => false

/-- Shape semantics of torch Tensor.expand with a fully resolved target (the
source passes -1 for kept dimensions): a changed dimension must currently be
1, otherwise torch raises an expand error. -/
def expand_ok : List Nat → List Nat → Bool
  | [], [] => true
  | s :: ss, t :: ts => if s = t ∨ s = 1 then expand_ok ss ts else false
  | _, _ => false

/-- Shape semantics of a binary elementwise torch operation on two
equal-rank tensors: dimensions must match or one must be 1, and a dimension
of size 1 stretches to the size of the other operand. -/
def broadcast_bin : List Nat → List Nat → Option (List Nat)
  | [], [] => some []
  | d1 :: t1, d2 :: t2 =>
    if d1 = d2 then (broadcast_bin t1 t2).map (fun r => d1 :: r)
    else if d1 = 1 then (broadcast_bin t1 t2).map (fun r => d2 :: r)
    else if d2 = 1 then (broadcast_bin t1 t2).map (fun r => d1 :: r)
    else none
  | _, _ => none

/-- Tests whether an Except value is an error. -/
def isErr {ε α : Type} : Except ε α → Bool
  | .error _ => true
  | .ok _ => false

/-- Shape-level semantics of lmul_numpy_matmul from src/rtl/numpy_lmul.py on
operands of shapes (m, n) and (n2, p): the source expands the operands to
(m, n, 1) and (1, n2, p) and broadcasts both to (m, n, p) with
np.broadcast_to; afterwards the kernel, decode and axis-1 sum operate on
equal (m, n, p) shapes and return the (m, p) result. -/
def lmul_numpy_matmul (m n n2 p : Nat) : Except String (Nat × Nat) :=
  if broadcast_to_ok [m, n, 1] [m, n, p] then
    if broadcast_to_ok [1, n2, p] [m, n, p] then Except.ok (m, p)
    else Except.error "could not broadcast b to (m, n, p)"
  else Except.error "could not broadcast a to (m, n, p)"

/-- Shape-level semantics of lmul_torch_matmul from src/rtl/pytorch_lmul.py
on operands of shapes (m, n) and (n2, p): the source expands (m, n, 1) to
(m, n, 1).expand(-1, -1, p) and (1, n2, p) to (m, n2, p); inside
lmul_torch_vectorized the binary operations broadcast (m, n, p) against
(m, n2, p), and the boolean-mask writes into the zero tensor of shape
(m, n, p) require the mask shape to equal (m, n, p). -/
def lmul_torch_matmul (m n n2 p : Nat) : Except String (Nat × Nat) :=
  if expand_ok [m, n, 1] [m, n, p] then
    if expand_ok [1, n2, p] [m, n2, p] then
      match broadcast_bin [m, n, p] [m, n2, p] with
      | none => Except.error "shapes cannot be broadcast"
      | some s => if s = [m, n, p] then Except.ok (m, p)
                  else Except.error "mask shape mismatch"
    else Except.error "expand failed"
  else Except.error "expand failed"

/-- C5 counterexample: with shapes (2, 2) and (1, 3) the contraction
dimensions disagree (2 versus 1), yet both adapters broadcast the single row
of the second operand and return a (2, 3) result instead of failing. -/
theorem claim_C5_counterexample :
    (1 : Nat) ≠ 2 ∧ lmul_numpy_matmul 2 2 1 3 = Except.ok (2, 3) ∧
      lmul_torch_matmul 2 2 1 3 = Except.ok (2, 3) :=
  ⟨by decide, rfl, rfl⟩

/-- C5 (amended): the adapters fail on disagreeing contraction dimensions
except when the second operand has exactly one row, which broadcasting
silently accepts; for n2 different from both n and 1 both adapters fail with
an error. -/
theorem claim_C5 (m n n2 p : Nat) (hne : n2 ≠ n) (h1 : n2 ≠ 1) :
    isErr (lmul_numpy_matmul m n n2 p) = true ∧
      isErr (lmul_torch_matmul m n n2 p) = true := by
  have hne' : ¬ (n = n2) := fun h => hne h.symm
  have h1' : ¬ ((1 : Nat) = n2) := fun h => h1 h.symm
  constructor
  · have hba : broadcast_to_ok [m, n, 1] [m, n, p] = true := by
      simp [broadcast_to_ok]
    have hbb : broadcast_to_ok [1, n2, p] [m, n, p] = false := by
      simp [broadcast_to_ok, hne, h1]
    simp [lmul_numpy_matmul, hba, hbb, isErr]
  · have hea : expand_ok [m, n, 1] [m, n, p] = true := by
      simp [expand_ok]
    have heb : expand_ok [1, n2, p] [m, n2, p] = true := by
      simp [expand_ok]
    by_cases hn1 : n = 1
    · subst hn1
      have hbin : broadcast_bin [m, 1, p] [m, n2, p] = some [m, n2, p] := by
        simp [broadcast_bin, h1', isErr]
      simp [lmul_torch_matmul, hea, heb, hbin, isErr, h1]
    · have hbin : broadcast_bin [m, n, p] [m, n2, p] = none := by
        simp [broadcast_bin, hne', hn1, h1]
      simp [lmul_torch_matmul, hea, heb, hbin, isErr]

/-- Witness for C5 at the concrete shapes (2, 2) and (3, 3). -/
theorem claim_C5_witness :
    (3 : Nat) ≠ 2 ∧ (3 : Nat) ≠ 1 ∧
      (isErr (lmul_numpy_matmul 2 2 3 3) = true ∧
        isErr (lmul_torch_matmul 2 2 3 3) = true) :=
  ⟨by decide, by decide, claim_C5 2 2 3 3 (by decide) (by decide)⟩

end MatmulShapes

section HarnessParsing

/-- Classification of one line of simulator standard output, following the
branch structure of the parsing loop of BatchLMULTester.test_batch in
src/rtl/lmul_tester.py: a line starting with ERROR, a CYCLES_WINDOW metric
line, a TOTAL_CYCLES metric line, a line that parses as a hexadecimal
result, or any other line (skipped by the loop). -/
inductive SimLine where
  | errorLine : SimLine
  | cyclesWindowLine (k : Nat) : SimLine
  | totalCyclesLine (k : Nat) : SimLine
  | resultLine (v : Nat) : SimLine
  | otherLine : SimLine
deriving DecidableEq

/-- The parsing loop of BatchLMULTester.test_batch: raise on an ERROR line,
record the two metric lines, append every hexadecimal line to the result
list in order, skip anything else, and return whatever was collected. -/
def parseSimLines : List SimLine → List Nat → Option Nat → Option Nat →
    Except String (List Nat × Option Nat × Option Nat)
  | [], results, cw, tc => Except.ok (results, cw, tc)
  | .errorLine :: _, _, _, _ => Except.error "Simulation error"
  | .cyclesWindowLine k :: rest, results, _, tc => parseSimLines rest results (some k) tc
  | .totalCyclesLine k :: rest, results, cw, _ => parseSimLines rest results cw (some k)
  | .resultLine v :: rest, results, cw, tc => parseSimLines rest (results ++ [v]) cw tc
  | .otherLine :: rest, results, cw, tc => parseSimLines rest results cw tc

/-- Result-collection semantics of BatchLMULTester.test_batch: numTests, the
number of stimulus pairs, is used by the source only to generate the
testbench text; the parsing stage never compares it with the number of
parsed result lines. -/
def test_batch (numTests : Nat) (lines : List SimLine) :
    Except String (List Nat × Option Nat × Option Nat) :=
  parseSimLines lines [] none none

/-- Helper: parsing succeeds on any output that contains no ERROR line. -/
theorem parseSimLines_ok : ∀ (lines : List SimLine) (rs : List Nat) (cw tc : Option Nat),
    SimLine.errorLine ∉ lines →
    ∃ out, parseSimLines lines rs cw tc = Except.ok out := by
  intro lines
  induction lines with
  | nil => exact fun rs cw tc _ => ⟨_, rfl⟩
  | cons hd tl ih =>
    intro rs cw tc h
    have htl : SimLine.errorLine ∉ tl := fun hm => h (List.mem_cons_of_mem hd hm)
    cases hd with
    | errorLine => exact absurd (List.mem_cons_self _ _) h
    | cyclesWindowLine k => exact ih rs (some k) tc htl
    | totalCyclesLine k => exact ih rs cw (some k) htl
    | resultLine v => exact ih (rs ++ [v]) cw tc htl
    | otherLine => exact ih rs cw tc htl

/-- C7 counterexample: a run with two stimulus pairs whose simulator output
contains one result line is returned as the one-element result list, not
rejected with a count-mismatch error. -/
theorem claim_C7_counterexample :
    test_batch 2 [SimLine.resultLine 5] = Except.ok ([5], none, none) ∧
      ([5] : List Nat).length ≠ 2 := by
  constructor
  · rfl
  · decide

/-- C7 (amended): test_batch performs no count comparison at all — the
parsed output is independent of the stimulus count, and whenever the output
contains no ERROR line the partial or surplus result list is returned to the
caller as is (a shortfall can surface only indirectly, as a simulator
timeout ERROR line, which raises a simulation error, not a count
mismatch). -/
theorem claim_C7 (n : Nat) (lines : List SimLine)
    (h : SimLine.errorLine ∉ lines) :
    test_batch n lines = test_batch 0 lines ∧
      ∃ out, test_batch n lines = Except.ok out :=
  ⟨rfl, parseSimLines_ok lines [] none none h⟩

/-- Witness for C7 on a concrete error-free output with one result line and
one metric line, against a three-pair stimulus. -/
theorem claim_C7_witness :
    SimLine.errorLine ∉ [SimLine.resultLine 1, SimLine.cyclesWindowLine 7] ∧
      (test_batch 3 [SimLine.resultLine 1, SimLine.cyclesWindowLine 7] =
          test_batch 0 [SimLine.resultLine 1, SimLine.cyclesWindowLine 7] ∧
        ∃ out, test_batch 3 [SimLine.resultLine 1, SimLine.cyclesWindowLine 7] =
          Except.ok out) :=
  ⟨by decide, claim_C7 3 [SimLine.resultLine 1, SimLine.cyclesWindowLine 7] (by decide)⟩

end HarnessParsing
